import Mathlib

/-!
Verification of the checkout planner and applier in
`src/commands/WORKDIR.js` (`fastCheckout`), against its natural-language
specification.  The JavaScript is embedded shallowly: the planner's 8-case
switch becomes a pure function on walk-entry triples, the surrounding
control flow becomes a pure function from an *oracle world* (the external
collaborators: ref resolution, object store, lstat, the walk result) to an
outcome plus a trace of observable effects.  Paths (`fullpath`) are
slash-joined strings in the source; we model a path as its list of
segments, with `[]` standing for the root path `"."`.
-/

set_option maxHeartbeats 1000000

namespace Checkout

/-- A working-tree relative path, as its list of `/`-separated segments;
`[]` is the root (the source's `"."`). -/
abbrev Path := List String

/-- Entity types carried by walker entries (spec section 3). -/
inductive EntryType where
  | tree
  | blob
  | commit
  | special
deriving DecidableEq, Repr

/-- String form of an entry type, as interpolated into the source's
`Unhandled type ...` messages. -/
def EntryType.toStr : EntryType → String
  | .tree => "tree"
  | .blob => "blob"
  | .commit => "commit"
  | .special => "special"

/-- A `STAGE` (index) walker entry, with its lazy fields already populated:
the planner only ever reads `mode`/`oid` after awaiting `populateStat` /
`populateHash`, so we model the populated values directly.  `mode` is the
numeric mode stored in the index (the source compares
`normalizeMode(stage.mode).toString(8)` against the commit's mode). -/
structure StageEntry where
  exists_ : Bool
  fullpath : Path
  type : EntryType
  mode : Nat
  oid : String
deriving DecidableEq, Repr

/-- A `TREE` (target commit) walker entry; its `mode` is the octal string
stored in the tree object (e.g. `"100644"`). -/
structure CommitEntry where
  exists_ : Bool
  fullpath : Path
  type : EntryType
  mode : String
  oid : String
deriving DecidableEq, Repr

/-- A `WORKDIR` walker entry; `mode` is the numeric mode from `lstat`. -/
structure WorkdirEntry where
  exists_ : Bool
  fullpath : Path
  type : EntryType
  mode : Nat
  oid : String
deriving DecidableEq, Repr

/-- The entry triple handed to the walker callbacks, in the source's
destructuring order `[commit, workdir, stage]`. -/
structure EntryTriple where
  commit : CommitEntry
  workdir : WorkdirEntry
  stage : StageEntry
deriving DecidableEq, Repr

/-- A plan op.  The source builds heterogeneous arrays
`[method, fullpath, oid, mode, chmod]`; each constructor records one of the
array shapes the planner actually produces.  `unhandled msg` is the
one-element array `` [`delete entry Unhandled type ...`] `` produced at key
`101` for stage types other than tree/blob: its *first* element is the
message itself. -/
inductive Op where
  | mkdir (fullpath : Path)
  | create (fullpath : Path) (oid : String) (mode : String)
  | createIndex (fullpath : Path) (oid : String) (mode : String)
  | update (fullpath : Path) (oid : String) (mode : String) (chmod : Bool)
  | delete (fullpath : Path)
  | deleteIndex (fullpath : Path)
  | rmdir (fullpath : Path)
  | updateDirToBlob (fullpath : Path) (oid : String)
  | updateBlobToTree (fullpath : Path)
  | conflict (fullpath : Path)
  | error (message : String)
  | unhandled (message : String)
deriving DecidableEq, Repr

/-- The first element of the op array — what the aggregator and the applier
phases destructure as `method`.  For the one-element `unhandled` array the
first element is the message string itself. -/
def Op.method : Op → String
  | .mkdir _ => "mkdir"
  | .create _ _ _ => "create"
  | .createIndex _ _ _ => "create-index"
  | .update _ _ _ _ => "update"
  | .delete _ => "delete"
  | .deleteIndex _ => "delete-index"
  | .rmdir _ => "rmdir"
  | .updateDirToBlob _ _ => "update-dir-to-blob"
  | .updateBlobToTree _ => "update-blob-to-tree"
  | .conflict _ => "conflict"
  | .error _ => "error"
  | .unhandled m => m

/-- The second element of the op array read as a path (`fullpath` in the
applier's destructuring).  For `error` the second element is a message and
for `unhandled` it is absent (`undefined`); those ops are never selected by
a path-consuming scan on planner-produced plans, and we return `[]`. -/
def Op.fullpathOf : Op → Path
  | .mkdir p => p
  | .create p _ _ => p
  | .createIndex p _ _ => p
  | .update p _ _ _ => p
  | .delete p => p
  | .deleteIndex p => p
  | .rmdir p => p
  | .updateDirToBlob p _ => p
  | .updateBlobToTree p => p
  | .conflict p => p
  | .error _ => []
  | .unhandled _ => []

/-- The second element of the op array read as a string — the error
aggregator maps it out of `error` ops as the message. -/
def Op.messageOf : Op → String
  | .error m => m
  | _ => ""

/-- The third element of the op array (`oid`), `""` when absent. -/
def Op.oidOf : Op → String
  | .create _ oid _ => oid
  | .createIndex _ oid _ => oid
  | .update _ oid _ _ => oid
  | .updateDirToBlob _ oid => oid
  | _ => ""

/-- The fourth element of the op array (`mode`), `""` when absent. -/
def Op.modeOf : Op → String
  | .create _ _ mode => mode
  | .createIndex _ _ mode => mode
  | .update _ _ mode _ => mode
  | _ => ""

/-- The fifth element of the op array (`chmod`); absent (`undefined`, hence
falsy) everywhere except on `update`. -/
def Op.chmodOf : Op → Bool
  | .update _ _ _ chmod => chmod
  | _ => false

/-- The path an op mentions, when it has one (`error` carries a message and
the one-element `unhandled` array carries nothing). -/
def Op.path? : Op → Option Path
  | .mkdir p => some p
  | .create p _ _ => some p
  | .createIndex p _ _ => some p
  | .update p _ _ _ => some p
  | .delete p => some p
  | .deleteIndex p => some p
  | .rmdir p => some p
  | .updateDirToBlob p _ => some p
  | .updateBlobToTree p => some p
  | .conflict p => some p
  | .error _ => none
  | .unhandled _ => none

/-- The planner: the body of the `map` callback from the 3-bit key on
(lines 204-356 of `fastCheckout`), for one entry triple.  `normOct` stands
for the external `mode => normalizeMode(mode).toString(8)` (the module
`src/utils/normalizeMode.js` is not among the provided sources, so the
planner is parametric in it).  Note two literal translations of the
JavaScript: at key `011`, the `commit-tree` case has no `return` and falls
through into `commit-blob`, so it yields a `conflict` op; at key `101` the
default branch builds a one-element array `[message]`, not an
`['error', message]` op. -/
def planEntry (normOct : Nat → String) (stage : StageEntry) (commit : CommitEntry)
    (workdir : WorkdirEntry) : Option Op :=
  match stage.exists_, commit.exists_, workdir.exists_ with
  -- '000': impossible case
  | false, false, false => none
  -- '001': untracked workdir files are ignored
  | false, false, true => none
  -- '010': new entries
  | false, true, false =>
    match commit.type with
    | .tree => some (.mkdir commit.fullpath)
    | .blob => some (.create commit.fullpath commit.oid commit.mode)
    | .commit => none -- gitlink: logs a NotImplementedFail and returns undefined
    | .special => some (.error ("new entry Unhandled type " ++ commit.type.toStr))
  -- '011': new entries with something already in the workdir
  | false, true, true =>
    match commit.type, workdir.type with
    | .tree, .tree => none
    | .tree, .blob => some (.conflict commit.fullpath)
    | .blob, .tree => some (.conflict commit.fullpath)
    | .blob, .blob =>
      if commit.oid ≠ workdir.oid then some (.conflict commit.fullpath)
      else if commit.mode ≠ normOct workdir.mode then some (.conflict commit.fullpath)
      else some (.createIndex commit.fullpath commit.oid commit.mode)
    -- 'commit-tree' logs a NotImplementedFail and then, lacking a return,
    -- falls through into 'commit-blob':
    | .commit, .tree => some (.conflict commit.fullpath)
    | .commit, .blob => some (.conflict commit.fullpath)
    | _, _ => some (.error ("new entry Unhandled type " ++ commit.type.toStr))
  -- '100': staged but neither in commit nor workdir
  | true, false, false => some (.deleteIndex stage.fullpath)
  -- '101': deleted entries
  | true, false, true =>
    match stage.type with
    | .tree => some (.rmdir stage.fullpath)
    | .blob =>
      if stage.oid ≠ workdir.oid then some (.conflict stage.fullpath)
      else some (.delete stage.fullpath)
    | _ => some (.unhandled ("delete entry Unhandled type " ++ stage.type.toStr))
  -- '110' and '111': modified entries ('110' reuses the '111' branch)
  | true, true, _ =>
    match stage.type, commit.type with
    | .tree, .tree => none
    | .blob, .blob =>
      if workdir.exists_ = true ∧ workdir.oid ≠ stage.oid ∧ workdir.oid ≠ commit.oid then
        some (.conflict commit.fullpath)
      else if commit.mode ≠ normOct stage.mode then
        some (.update commit.fullpath commit.oid commit.mode true)
      else if commit.oid ≠ stage.oid then
        some (.update commit.fullpath commit.oid commit.mode false)
      else none
    | .tree, .blob => some (.updateDirToBlob commit.fullpath commit.oid)
    | .blob, .tree => some (.updateBlobToTree commit.fullpath)
    | _, _ =>
      some (.error ("update entry Unhandled type " ++ stage.type.toStr ++ "-"
        ++ commit.type.toStr))

/-- The full `map` callback: skip the root entry (`fullpath === '.'`), then
the late glob filter (`patternGlobrex`), then the key dispatch.  The glob
test against the bases is external (`globrex` is not among the provided
sources), so it enters as the oracle `tailMatch`; when no `pattern` is
given, `tailMatch` is constantly `true`. -/
def mapEntry (tailMatch : Path → Bool) (normOct : Nat → String) (e : EntryTriple) :
    Option Op :=
  if e.commit.fullpath = [] then none
  else if tailMatch e.commit.fullpath = false then none
  else planEntry normOct e.stage e.commit e.workdir

/-- The `reduce` callback (lines 359-370): flatten the children one level;
a missing parent op returns the children, an `rmdir` parent is pushed
*after* the children, any other parent is unshifted *before* them. -/
def reduceOps (parent : Option Op) (children : List (List Op)) : List Op :=
  let cs := children.flatten
  match parent with
  | none => cs
  | some p => if p.method = "rmdir" then cs ++ [p] else p :: cs

/-- Modelled from the spec: `walkBeta1.js` is not among the provided
sources.  Spec section 4.2 describes a synchronized pre-order walk whose
items at each level are the union of entry names across the three sources;
we model the traversal it performs as the tree of entry triples it yields,
children in their visit order. -/
inductive WTree where
  | node (entry : EntryTriple) (children : List WTree)

mutual
/-- Modelled from the spec: the post-order fold of `walkBeta1` — `map` on
the node, recursive results of the children, folded by `reduce`
(here the concrete reducer of `fastCheckout`, `reduceOps`). -/
def walkOps (mapFn : EntryTriple → Option Op) : WTree → List Op
  | .node e cs => reduceOps (mapFn e) (walkForest mapFn cs)
/-- Modelled from the spec: the recursive walk of a node's children, in
visit order. -/
def walkForest (mapFn : EntryTriple → Option Op) : List WTree → List (List Op)
  | [] => []
  | t :: ts => walkOps mapFn t :: walkForest mapFn ts
end

/-- Well-formedness of a walk tree, as guaranteed by the walker (spec
sections 3 and 4.2): the three entries of a node share one `fullpath`; the
children of a node at path `ps` sit at paths `ps ++ [n]` for pairwise
distinct segment names `n`. -/
inductive WF : Path → WTree → Prop where
  | node (ps : Path) (e : EntryTriple) (ns : List String) (cs : List WTree)
      (hc : e.commit.fullpath = ps) (hs : e.stage.fullpath = ps)
      (hw : e.workdir.fullpath = ps)
      (hnd : ns.Nodup) (hlen : cs.length = ns.length)
      (hch : ∀ pr ∈ ns.zip cs, WF (ps ++ [pr.1]) pr.2) :
      WF ps (.node e cs)

/-- Path prefix order: `PathLE p q` iff `q` is `p` or a descendant of
`p`. -/
def PathLE (p q : Path) : Prop := ∃ r, q = p ++ r

/-- Every path-carrying op in `l` lies at or under `ps`. -/
def PathsUnder (ps : Path) (l : List Op) : Prop :=
  ∀ o ∈ l, ∀ p, o.path? = some p → PathLE ps p

/-- The apply-order property of a plan: every `mkdir P` precedes every
`create` strictly below `P`, and every `delete` strictly below `P`
precedes every `rmdir P` (precedence expressed as a two-element
sublist). -/
def OrderedPlan (l : List Op) : Prop :=
  (∀ (P Q : Path) (oid mode : String), Q ≠ [] →
    Op.mkdir P ∈ l → Op.create (P ++ Q) oid mode ∈ l →
    List.Sublist [Op.mkdir P, Op.create (P ++ Q) oid mode] l) ∧
  (∀ P Q : Path, Q ≠ [] →
    Op.delete (P ++ Q) ∈ l → Op.rmdir P ∈ l →
    List.Sublist [Op.delete (P ++ Q), Op.rmdir P] l)

/-- Modelled from the spec: `src/utils/normalizeMode.js` is not among the
provided sources.  Spec section 3: working-directory modes are normalized
before comparison — directories map to `040000`, symlinks to `120000`, any
file with an executable bit to `100755`, any other regular file to
`100644`.  We classify by the conventional mode bit layout (type in the
high bits, permission bits low). -/
def normalizeMode (mode : Nat) : Nat :=
  if mode / 4096 = 4 then 0o40000
  else if mode / 4096 = 10 then 0o120000
  else if mode % 512 / 64 % 2 = 1 then 0o100755
  else 0o100644

/-- Base-8 rendering of a `Nat`, the model of JavaScript `toString(8)`. -/
def octStr (n : Nat) : String := ⟨Nat.toDigits 8 n⟩

/-- The composite `mode => normalizeMode(mode).toString(8)` the planner
compares against tree modes; used to instantiate the planner's `normOct`
parameter in concrete witnesses. -/
def normOctStr (mode : Nat) : String := octStr (normalizeMode mode)

/-! ### The surrounding control flow of `fastCheckout`

The collaborators (`GitRefManager`, the object store, the filesystem, the
index) are external to the provided sources; they enter the model as the
oracle `World` below, and every call the source makes on them is recorded
as an `Effect` in order.  The constant `dir`/`gitdir` prefixes on
filesystem paths are dropped: working-tree effects carry the
working-tree-relative `fullpath`, gitdir writes are tagged by which file
they touch. -/

/-- One observable side effect of `fastCheckout`, in program order. -/
inductive Effect where
  /-- `config({path, value})` during the remote-tracking bootstrap. -/
  | configWrite (path : String) (value : String)
  /-- `fs.write(gitdir + '/refs/heads/' + ref, oid + '\n')` during the
  remote-tracking bootstrap. -/
  | refWrite (ref : String) (content : String)
  /-- the final `fs.write(gitdir + '/HEAD', content + '\n')`. -/
  | headWrite (content : String)
  /-- `fs.rm(dir + '/' + fullpath)` (phase 1, or the `chmod` removal in
  phase 4). -/
  | rm (fullpath : Path)
  /-- `fs.rmdir(dir + '/' + fullpath)` (phase 2). -/
  | rmdir (fullpath : Path)
  /-- `fs.mkdir(dir + '/' + fullpath)` (phase 3). -/
  | mkdir (fullpath : Path)
  /-- `fs.write(dir + '/' + fullpath, object, ...)` in phase 4; `mode` is
  the `{mode}` option when passed (`some 0o777` for executables). -/
  | fileWrite (fullpath : Path) (content : String) (mode : Option Nat)
  /-- `fs.writelink(dir + '/' + fullpath, object)` in phase 4. -/
  | writelink (fullpath : Path) (content : String)
  /-- `index.insert({filepath, stats, oid})`; `statMode` is the mode field
  of the stats object passed in. -/
  | indexInsert (fullpath : Path) (oid : String) (statMode : Nat)
  /-- `index.delete({filepath})` in phase 1. -/
  | indexDelete (fullpath : Path)
  /-- an emitted `progress` event with phase, loaded counter and total. -/
  | progress (phase : String) (loaded : Nat) (total : Nat)
deriving DecidableEq, Repr

/-- The external collaborators, as oracles.  `resolve`/`expand` stand for
`GitRefManager.resolve`/`.expand` (`none` = the call throws);
`readObject` maps an oid to the blob bytes (`none` = the read throws);
`lstat` maps a path to the reported stat mode (`none` = lstat throws);
`plan` is the ops list the walk produces; `headContent` is the current
byte content of the `HEAD` file (never read by this code path — carried
only so claims about it can be stated). -/
structure World where
  resolve : String → Option String
  expand : String → String
  plan : List Op
  readObject : String → Option String
  lstat : Path → Option Nat
  headContent : String

/-- The invocation options of `fastCheckout` that this model depends on
(`dir`, `gitdir`, `emitterPrefix` only prefix paths/event names and are
dropped; `filepaths`/`pattern` act inside the walk oracle). -/
structure CheckoutArgs where
  ref : Option String
  remote : String
  noCheckout : Bool
  dryRun : Bool
deriving Repr

/-- What the `fastCheckout` promise does: resolve with nothing, resolve
with the plan (the `dryRun` early return), or reject. -/
inductive ErrKind where
  | missingParameter
  | resolveFail (ref : String)
  | checkoutConflict (filepaths : List Path)
  | internal (messages : List String)
deriving DecidableEq, Repr

/-- Outcome of a run. -/
inductive Outcome where
  | ok
  | planned (ops : List Op)
  | err (e : ErrKind)
deriving DecidableEq, Repr

/-- The conflict scan (line 382): filter ops whose first element is
`'conflict'`, map out the second element. -/
def conflictsOf (ops : List Op) : List Path :=
  (ops.filter (fun o => o.method = "conflict")).map Op.fullpathOf

/-- The error scan (line 388): filter ops whose first element is
`'error'`, map out the second element (the message). -/
def errorsOf (ops : List Op) : List String :=
  (ops.filter (fun o => o.method = "error")).map Op.messageOf

/-- JavaScript `String.prototype.startsWith`. -/
def strStartsWith (s p : String) : Bool := p.data.isPrefixOf s.data

/-- Oid resolution (lines 130-159): try `ref` locally, else fall back to
`remote + '/' + ref`. -/
def resolvedOid (w : World) (remote r : String) : Option String :=
  match w.resolve r with
  | some oid => some oid
  | none => w.resolve (remote ++ "/" ++ r)

/-- The side effects of the remote-tracking bootstrap (lines 144-158):
nothing when `ref` resolves locally or when the remote ref also fails
(the throw propagates before any write); otherwise the two config writes
and the new branch ref file. -/
def bootstrapEffects (w : World) (remote r : String) : List Effect :=
  match w.resolve r with
  | some _ => []
  | none =>
    match w.resolve (remote ++ "/" ++ r) with
    | none => []
    | some oid =>
      [.configWrite ("branch." ++ r ++ ".remote") remote,
       .configWrite ("branch." ++ r ++ ".merge") ("refs/heads/" ++ r),
       .refWrite r (oid ++ "\n")]

/-- The content written to `HEAD` (lines 537-539): `'ref: ' + fullRef`
when the expanded ref starts with `'refs/heads'`, the bare oid otherwise;
a newline is appended either way. -/
def headContentFor (w : World) (r oid : String) : String :=
  let fullRef := w.expand r
  (if strStartsWith fullRef "refs/heads" then "ref: " ++ fullRef else oid) ++ "\n"

/-- The inner mode dispatch of phase 4 (lines 491-504): write by the
declared mode, or raise `InternalFail` for any other mode.  The error is
raised inside the per-op `try` and the message matches the source. -/
def writeBlobByMode (fullpath : Path) (oid : String) (mode : String) (obj : String) :
    Except String (List Effect) :=
  if mode = "100644" then .ok [.fileWrite fullpath obj none]
  else if mode = "100755" then .ok [.fileWrite fullpath obj (some 0o777)]
  else if mode = "120000" then .ok [.writelink fullpath obj]
  else .error ("Invalid mode \"" ++ mode ++ "\" detected in blob " ++ oid)

/-- The write part of one phase-4 op (lines 483-505): skipped entirely for
`create-index`; otherwise read the object (a failing read is caught by the
per-op handler), do the `chmod` removal first when requested, then
dispatch on the mode.  Returns the effects performed and whether the `try`
block may continue to the lstat/insert step (`false` = an exception was
raised and caught, after the listed effects). -/
def tryWriteBlob (w : World) (o : Op) : List Effect × Bool :=
  if o.method = "create-index" then ([], true)
  else
    match w.readObject o.oidOf with
    | none => ([], false)
    | some obj =>
      let pre := if o.chmodOf = true then [Effect.rm o.fullpathOf] else []
      match writeBlobByMode o.fullpathOf o.oidOf o.modeOf obj with
      | .ok effs => (pre ++ effs, true)
      | .error _ => (pre, false)

/-- One phase-4 op (lines 480-529): the write part, then `fs.lstat`; if
the declared mode is `100755` the stat's mode is overwritten with `0o755`
before `index.insert`; progress fires after a successful insert.  Any
exception is caught per-op (the count then does not advance). -/
def applyCreateOp (w : World) (total : Nat) (o : Op) (count : Nat) :
    List Effect × Nat :=
  match tryWriteBlob w o with
  | (effs, false) => (effs, count)
  | (effs, true) =>
    match w.lstat o.fullpathOf with
    | none => (effs, count)
    | some m =>
      let statMode := if o.modeOf = "100755" then 0o755 else m
      (effs ++ [.indexInsert o.fullpathOf o.oidOf statMode,
                .progress "Updating workdir" (count + 1) total], count + 1)

/-- One phase-1 op (lines 412-426): `fs.rm` for `delete` (not for
`delete-index`), then `index.delete`, then progress. -/
def phase1Step (total : Nat) (o : Op) (count : Nat) : List Effect × Nat :=
  ((if o.method = "delete" then [Effect.rm o.fullpathOf] else []) ++
   [.indexDelete o.fullpathOf, .progress "Updating workdir" (count + 1) total],
   count + 1)

/-- One iteration of the phase-2 loop (lines 433-453): only `rmdir` ops
act; `fs.rmdir` then progress.  (`ENOTEMPTY` handling is not modelled:
the oracle filesystem removal succeeds.) -/
def phase2Step (total : Nat) (o : Op) (count : Nat) : List Effect × Nat :=
  if o.method = "rmdir" then
    ([.rmdir o.fullpathOf, .progress "Updating workdir" (count + 1) total], count + 1)
  else ([], count)

/-- One phase-3 op (lines 456-468): `fs.mkdir` then progress. -/
def phase3Step (total : Nat) (o : Op) (count : Nat) : List Effect × Nat :=
  ([.mkdir o.fullpathOf, .progress "Updating workdir" (count + 1) total], count + 1)

/-- Run one applier phase over a list of ops, threading the shared
progress counter.  The source fires the ops of phases 1, 3 and 4 under
`Promise.all`; their effects are recorded in plan order (the claims
checked here do not depend on the interleaving). -/
def runPhase (step : Op → Nat → List Effect × Nat) : List Op → Nat → List Effect × Nat
  | [], count => ([], count)
  | o :: rest, count =>
    let ec := step o count
    let rest' := runPhase step rest ec.2
    (ec.1 ++ rest'.1, rest'.2)

/-- The phase-1 selection (line 412). -/
def phase1Sel (o : Op) : Bool := o.method = "delete" || o.method = "delete-index"

/-- The phase-3 selection (line 456). -/
def phase3Sel (o : Op) : Bool := o.method = "mkdir"

/-- The phase-4 selection (line 479). -/
def phase4Sel (o : Op) : Bool :=
  o.method = "create" || o.method = "create-index" || o.method = "update"

/-- The whole applier (lines 402-533): `count` restarts at 0, `total` is
the length of the whole plan, and the four phases run in sequence —
deletes, rmdirs (a loop over all ops), mkdirs, creates/updates. -/
def applyOps (w : World) (ops : List Op) : List Effect :=
  let total := ops.length
  let p1 := runPhase (phase1Step total) (ops.filter phase1Sel) 0
  let p2 := runPhase (phase2Step total) ops p1.2
  let p3 := runPhase (phase3Step total) (ops.filter phase3Sel) p2.2
  let p4 := runPhase (applyCreateOp w total) (ops.filter phase4Sel) p3.2
  p1.1 ++ p2.1 ++ p3.1 ++ p4.1

/-- The control flow of `fastCheckout` (lines 97-544): missing-`ref`
check; oid resolution with the remote-tracking bootstrap; `HEAD`
resolution; when `noCheckout` is off and `HEAD` is not already at the oid,
the walk produces the plan (the `plan` oracle), the conflict and error
scans may reject, `dryRun` returns the plan, otherwise the applier runs;
finally `HEAD` is written. -/
def fastCheckout (args : CheckoutArgs) (w : World) : Outcome × List Effect :=
  match args.ref with
  | none => (.err .missingParameter, [])
  | some r =>
    let boot := bootstrapEffects w args.remote r
    match resolvedOid w args.remote r with
    | none => (.err (.resolveFail (args.remote ++ "/" ++ r)), [])
    | some oid =>
      match w.resolve "HEAD" with
      | none => (.err (.resolveFail "HEAD"), boot)
      | some h =>
        if args.noCheckout = false ∧ h ≠ oid then
          let ops := w.plan
          let conflicts := conflictsOf ops
          if 0 < conflicts.length then (.err (.checkoutConflict conflicts), boot)
          else
            let errs := errorsOf ops
            if 0 < errs.length then (.err (.internal errs), boot)
            else if args.dryRun = true then (.planned ops, boot)
            else
              (.ok, boot ++ applyOps w ops ++ [.headWrite (headContentFor w r oid)])
        else (.ok, boot ++ [.headWrite (headContentFor w r oid)])

/-- Does an effect modify a working-tree file or directory, an index
entry, or `HEAD`?  (The bootstrap's gitdir config/branch-ref writes and
progress events are the only effects outside this set.) -/
def Effect.mutates : Effect → Bool
  | .configWrite _ _ => false
  | .refWrite _ _ => false
  | .progress _ _ _ => false
  | _ => true

/-- Is an effect the `HEAD` write? -/
def Effect.isHeadWrite : Effect → Bool
  | .headWrite _ => true
  | _ => false

/-- The method strings recognized anywhere downstream of the planner: by
the two aggregator scans and the four applier phases. -/
def recognizedMethod (s : String) : Bool :=
  s = "mkdir" || s = "rmdir" || s = "create" || s = "create-index" ||
  s = "update" || s = "delete" || s = "delete-index" || s = "conflict" ||
  s = "error"

/-! ### Concrete inputs used by the witnesses and counterexamples -/

/-- A repository state whose walk yields one conflict op: `HEAD` at `x1`,
`master` at `x2`. -/
def wConflict : World :=
  { resolve := fun s => if s = "master" then some "x2"
      else if s = "HEAD" then some "x1" else none
    expand := fun _ => "refs/heads/master"
    plan := [.conflict ["old"], .error "new entry Unhandled type special"]
    readObject := fun _ => none
    lstat := fun _ => none
    headContent := "ref: refs/heads/dev\n" }

/-- A checkout invocation of `master`, all defaults. -/
def aPlain : CheckoutArgs := ⟨some "master", "origin", false, false⟩

/-- The same invocation with `dryRun = true`. -/
def aDry : CheckoutArgs := ⟨some "master", "origin", false, true⟩

/-- A state where `HEAD` already resolves to the oid of `master`, with
`HEAD` detached (its file content is the bare oid). -/
def wAtOid : World :=
  { resolve := fun s => if s = "master" then some "x1"
      else if s = "HEAD" then some "x1" else none
    expand := fun _ => "refs/heads/master"
    plan := []
    readObject := fun _ => none
    lstat := fun _ => none
    headContent := "x1\n" }

/-- A state where `feature` resolves only as `origin/feature`, `HEAD`
elsewhere: the remote-tracking bootstrap fires. -/
def wRemoteOnly : World :=
  { resolve := fun s => if s = "origin/feature" then some "x2"
      else if s = "HEAD" then some "x1" else none
    expand := fun _ => "refs/heads/feature"
    plan := []
    readObject := fun _ => none
    lstat := fun _ => none
    headContent := "ref: refs/heads/master\n" }

/-- A dry-run checkout of `feature`. -/
def aDryFeature : CheckoutArgs := ⟨some "feature", "origin", false, true⟩

/-- A clean state for `master` at `x2` (no conflicts, empty plan),
`HEAD` at `x1`. -/
def wClean : World :=
  { resolve := fun s => if s = "master" then some "x2"
      else if s = "HEAD" then some "x1" else none
    expand := fun _ => "refs/heads/master"
    plan := []
    readObject := fun _ => none
    lstat := fun _ => some 0o644
    headContent := "ref: refs/heads/dev\n" }

/-- A state for the phase-4 witness: the blob `oidB` reads back as
`"bytes"`, `lstat` reports a non-executable mode `0o644`. -/
def wPhase4 : World :=
  { resolve := fun _ => none
    expand := fun _ => ""
    plan := []
    readObject := fun s => if s = "oidB" then some "bytes" else none
    lstat := fun _ => some 0o644
    headContent := "" }

/-- The walk tree of scenario S1: fresh checkout of
`{a: blob 100644, d: tree {b: blob 100755}}` into an empty workdir and
index. -/
def tS1 : WTree :=
  .node ⟨⟨true, [], .tree, "040000", "r0"⟩, ⟨false, [], .tree, 0, ""⟩,
         ⟨false, [], .tree, 0, ""⟩⟩
    [.node ⟨⟨true, ["a"], .blob, "100644", "oa"⟩, ⟨false, ["a"], .blob, 0, ""⟩,
            ⟨false, ["a"], .blob, 0, ""⟩⟩ [],
     .node ⟨⟨true, ["d"], .tree, "040000", "od"⟩, ⟨false, ["d"], .tree, 0, ""⟩,
            ⟨false, ["d"], .tree, 0, ""⟩⟩
       [.node ⟨⟨true, ["d", "b"], .blob, "100755", "ob"⟩,
               ⟨false, ["d", "b"], .blob, 0, ""⟩,
               ⟨false, ["d", "b"], .blob, 0, ""⟩⟩ []]]

/-! ## Theorems -/

/-- The remote-tracking bootstrap only writes gitdir config entries and the
new branch-ref file: none of its effects touch a working-tree file or
directory, an index entry, or `HEAD`. -/
theorem bootstrapEffects_mutates_false (w : World) (remote r : String) :
    ∀ e ∈ bootstrapEffects w remote r, e.mutates = false := by
  intro e he
  unfold bootstrapEffects at he
  rcases hw : w.resolve r with _ | o
  · rw [hw] at he
    rcases hw2 : w.resolve (remote ++ "/" ++ r) with _ | o2
    · rw [hw2] at he
      simp at he
    · rw [hw2] at he
      simp only [List.mem_cons, List.not_mem_nil, or_false] at he
      rcases he with rfl | rfl | rfl <;> rfl
  · rw [hw] at he
    simp at he

/-- `fastCheckout` reduced on the path that reaches the conflict scan and
rejects there. -/
theorem fastCheckout_conflict_run (args : CheckoutArgs) (w : World) (r oid h : String)
    (href : args.ref = some r) (hoid : resolvedOid w args.remote r = some oid)
    (hH : w.resolve "HEAD" = some h) (hnc : args.noCheckout = false) (hne : h ≠ oid)
    (hconf : conflictsOf w.plan ≠ []) :
    fastCheckout args w =
      (.err (.checkoutConflict (conflictsOf w.plan)), bootstrapEffects w args.remote r) := by
  have hlen : 0 < (conflictsOf w.plan).length := List.length_pos.mpr hconf
  simp [fastCheckout, href, hoid, hH, hnc, hne, hlen]

/-- `fastCheckout` reduced on the path that passes the conflict scan and
rejects at the error scan. -/
theorem fastCheckout_error_run (args : CheckoutArgs) (w : World) (r oid h : String)
    (href : args.ref = some r) (hoid : resolvedOid w args.remote r = some oid)
    (hH : w.resolve "HEAD" = some h) (hnc : args.noCheckout = false) (hne : h ≠ oid)
    (hconf : conflictsOf w.plan = []) (herr : errorsOf w.plan ≠ []) :
    fastCheckout args w =
      (.err (.internal (errorsOf w.plan)), bootstrapEffects w args.remote r) := by
  have hlen : 0 < (errorsOf w.plan).length := List.length_pos.mpr herr
  simp [fastCheckout, href, hoid, hH, hnc, hne, hconf, hlen]

/-- Claim C1: if the plan contains at least one conflict op, the run fails
with a `CheckoutConflict` error carrying the full conflict-path list (the
conflict scan's output), and no working-tree file or directory, no index
entry and not `HEAD` is modified — the applier never runs; likewise, with
at least one error op and no conflict op, the run fails with an `Internal`
error carrying all the messages, before any such mutation.  (The only
effects that can precede either failure are the gitdir config/branch-ref
writes of the remote-tracking bootstrap, which happen before the walk.) -/
theorem c1_conflict_error_atomicity (args : CheckoutArgs) (w : World)
    (r oid h : String) (href : args.ref = some r)
    (hoid : resolvedOid w args.remote r = some oid)
    (hH : w.resolve "HEAD" = some h) (hnc : args.noCheckout = false)
    (hne : h ≠ oid) :
    (conflictsOf w.plan ≠ [] →
      (fastCheckout args w).1 = .err (.checkoutConflict (conflictsOf w.plan)) ∧
      ∀ e ∈ (fastCheckout args w).2, e.mutates = false) ∧
    (conflictsOf w.plan = [] → errorsOf w.plan ≠ [] →
      (fastCheckout args w).1 = .err (.internal (errorsOf w.plan)) ∧
      ∀ e ∈ (fastCheckout args w).2, e.mutates = false) := by
  constructor
  · intro hconf
    rw [fastCheckout_conflict_run args w r oid h href hoid hH hnc hne hconf]
    exact ⟨rfl, bootstrapEffects_mutates_false w args.remote r⟩
  · intro hconf herr
    rw [fastCheckout_error_run args w r oid h href hoid hH hnc hne hconf herr]
    exact ⟨rfl, bootstrapEffects_mutates_false w args.remote r⟩

/-- Witness for C1 at a concrete repository state with a conflicting
plan. -/
theorem c1_witness :
    aPlain.ref = some "master" ∧
    resolvedOid wConflict aPlain.remote "master" = some "x2" ∧
    wConflict.resolve "HEAD" = some "x1" ∧
    aPlain.noCheckout = false ∧
    ("x1" : String) ≠ "x2" ∧
    conflictsOf wConflict.plan ≠ [] ∧
    ((fastCheckout aPlain wConflict).1 =
       .err (.checkoutConflict (conflictsOf wConflict.plan)) ∧
     ∀ e ∈ (fastCheckout aPlain wConflict).2, e.mutates = false) :=
  ⟨rfl, rfl, rfl, rfl, by decide, by decide,
   (c1_conflict_error_atomicity aPlain wConflict "master" "x2" "x1"
     rfl rfl rfl rfl (by decide)).1 (by decide)⟩

/-- Claim C2 counterexample: with `dryRun = true` the operation is *not*
side-effect free in general.  First run: `HEAD` already resolves to the
target oid, so the plan stage is skipped entirely — the run resolves with
nothing (not with a plan) and still writes `HEAD`.  Second run: the ref
only resolves remotely, so the remote-tracking bootstrap writes two config
entries and the new branch-ref file before the plan is returned. -/
theorem c2_counterexample :
    aDry.dryRun = true ∧
    fastCheckout aDry wAtOid = (.ok, [.headWrite "ref: refs/heads/master\n"]) ∧
    aDryFeature.dryRun = true ∧
    fastCheckout aDryFeature wRemoteOnly =
      (.planned [],
       [.configWrite "branch.feature.remote" "origin",
        .configWrite "branch.feature.merge" "refs/heads/feature",
        .refWrite "feature" "x2\n"]) :=
  ⟨rfl, rfl, rfl, rfl⟩

/-- Claim C2 (amended): with `dryRun = true`, when the ref resolves
locally, `noCheckout` is false, `HEAD` differs from the resolved oid, and
the plan carries no conflict and no error op, the run resolves with the
plan and performs no side effect at all. -/
theorem c2_dry_run_purity (args : CheckoutArgs) (w : World) (r oid h : String)
    (href : args.ref = some r) (hloc : w.resolve r = some oid)
    (hH : w.resolve "HEAD" = some h) (hnc : args.noCheckout = false)
    (hne : h ≠ oid) (hdry : args.dryRun = true)
    (hconf : conflictsOf w.plan = []) (herr : errorsOf w.plan = []) :
    fastCheckout args w = (.planned w.plan, []) := by
  have hoid : resolvedOid w args.remote r = some oid := by
    simp [resolvedOid, hloc]
  have hboot : bootstrapEffects w args.remote r = [] := by
    simp [bootstrapEffects, hloc]
  simp [fastCheckout, href, hoid, hH, hnc, hne, hdry, hconf, herr, hboot]

/-- Witness for the amended C2 at a concrete clean state. -/
theorem c2_dry_run_purity_witness :
    aDry.ref = some "master" ∧
    wClean.resolve "master" = some "x2" ∧
    wClean.resolve "HEAD" = some "x1" ∧
    aDry.noCheckout = false ∧
    ("x1" : String) ≠ "x2" ∧
    aDry.dryRun = true ∧
    conflictsOf wClean.plan = [] ∧
    errorsOf wClean.plan = [] ∧
    fastCheckout aDry wClean = (.planned wClean.plan, []) :=
  ⟨rfl, rfl, rfl, rfl, by decide, rfl, rfl, rfl,
   c2_dry_run_purity aDry wClean "master" "x2" "x1" rfl rfl rfl rfl
     (by decide) rfl rfl rfl⟩

/-- Claim C3: at key `111` (or `110`) with both `stage.type` and
`commit.type` blobs, a conflict op is emitted iff the workdir entry exists
and its oid differs from both the stage's and the commit's; otherwise a
mode difference yields `update` with `chmod = true`, else an oid
difference yields `update` with `chmod = false`, else no op. -/
theorem c3_modified_blob_blob (norm : Nat → String) (s : StageEntry)
    (c : CommitEntry) (w : WorkdirEntry) (hs : s.exists_ = true)
    (hc : c.exists_ = true) (hst : s.type = .blob) (hct : c.type = .blob) :
    (planEntry norm s c w = some (.conflict c.fullpath) ↔
      (w.exists_ = true ∧ w.oid ≠ s.oid ∧ w.oid ≠ c.oid)) ∧
    (¬(w.exists_ = true ∧ w.oid ≠ s.oid ∧ w.oid ≠ c.oid) →
      (c.mode ≠ norm s.mode →
        planEntry norm s c w = some (.update c.fullpath c.oid c.mode true)) ∧
      (c.mode = norm s.mode → c.oid ≠ s.oid →
        planEntry norm s c w = some (.update c.fullpath c.oid c.mode false)) ∧
      (c.mode = norm s.mode → c.oid = s.oid → planEntry norm s c w = none)) := by
  by_cases h1 : w.exists_ = true ∧ w.oid ≠ s.oid ∧ w.oid ≠ c.oid
  · simp [planEntry, hs, hc, hst, hct, h1]
  · by_cases h2 : c.mode = norm s.mode
    · by_cases h3 : c.oid = s.oid
      · simp [planEntry, hs, hc, hst, hct, h1, h2, h3]
      · simp [planEntry, hs, hc, hst, hct, h1, h2, h3]
    · simp [planEntry, hs, hc, hst, hct, h1, h2]

/-- Witness for C3: a dirty workdir blob distinct from both sides yields a
conflict op. -/
theorem c3_witness :
    (⟨true, ["f"], .blob, 0o100644, "s1"⟩ : StageEntry).exists_ = true ∧
    (⟨true, ["f"], .blob, "100644", "c1"⟩ : CommitEntry).exists_ = true ∧
    (⟨true, ["f"], .blob, 0o100644, "s1"⟩ : StageEntry).type = .blob ∧
    (⟨true, ["f"], .blob, "100644", "c1"⟩ : CommitEntry).type = .blob ∧
    (planEntry normOctStr ⟨true, ["f"], .blob, 0o100644, "s1"⟩
        ⟨true, ["f"], .blob, "100644", "c1"⟩ ⟨true, ["f"], .blob, 0o100644, "w1"⟩ =
      some (.conflict ["f"]) ↔
      ((⟨true, ["f"], .blob, 0o100644, "w1"⟩ : WorkdirEntry).exists_ = true ∧
       ("w1" : String) ≠ "s1" ∧ ("w1" : String) ≠ "c1")) :=
  ⟨rfl, rfl, rfl, rfl,
   (c3_modified_blob_blob normOctStr ⟨true, ["f"], .blob, 0o100644, "s1"⟩
     ⟨true, ["f"], .blob, "100644", "c1"⟩ ⟨true, ["f"], .blob, 0o100644, "w1"⟩
     rfl rfl rfl rfl).1⟩

/-- Claim C5 evaluated on its failing input: at key `011` with
`commit.type = commit` (gitlink) and `workdir.type = tree`, the source's
`commit-tree` case lacks a `return` and falls through into `commit-blob`,
so the planner emits a `conflict` op (which the aggregator then turns into
a `CheckoutConflict` failure) instead of only logging a diagnostic and
skipping. -/
theorem c5_commit_tree_fallthrough :
    planEntry normOctStr ⟨false, ["sub"], .blob, 0, ""⟩
      ⟨true, ["sub"], .commit, "160000", "aa"⟩ ⟨true, ["sub"], .tree, 0o40000, ""⟩ =
      some (.conflict ["sub"]) ∧
    conflictsOf [.conflict ["sub"]] = [["sub"]] :=
  ⟨rfl, rfl⟩

/-- Claim C6 evaluated on its failing input: at key `101` with a stage
type that is neither tree nor blob, the planner returns the one-element
array `` [`delete entry Unhandled type commit`] `` — not an
`['error', ...]` op — so neither aggregator scan selects it and the
operation does not fail with an `Internal` error. -/
theorem c6_unhandled_not_error :
    planEntry normOctStr ⟨true, ["m"], .commit, 0o160000, "aa"⟩
      ⟨false, ["m"], .blob, "", ""⟩ ⟨true, ["m"], .tree, 0o40000, ""⟩ =
      some (.unhandled "delete entry Unhandled type commit") ∧
    Op.method (.unhandled "delete entry Unhandled type commit") ≠ "error" ∧
    errorsOf [.unhandled "delete entry Unhandled type commit"] = [] ∧
    conflictsOf [.unhandled "delete entry Unhandled type commit"] = [] :=
  ⟨rfl, by decide, rfl, rfl⟩

/-- Claim C7 counterexample: `HEAD` is detached at the oid that `master`
also points to; checking out `master` produces only the `HEAD` write, but
its content (`ref: refs/heads/master\n`) differs from what `HEAD` already
contains (`x1\n`) — the write is not a no-op by content. -/
theorem c7_counterexample :
    wAtOid.resolve "HEAD" = wAtOid.resolve "master" ∧
    wAtOid.headContent = "x1\n" ∧
    fastCheckout aPlain wAtOid = (.ok, [.headWrite "ref: refs/heads/master\n"]) ∧
    ("ref: refs/heads/master\n" : String) ≠ wAtOid.headContent :=
  ⟨rfl, rfl, rfl, by decide⟩

/-- Claim C7 (amended): when `HEAD` already resolves to the same oid as a
locally-resolving ref and `noCheckout` is false, no plan is built and the
filesystem and index are untouched; the only write is the `HEAD` write
(whose content follows the `ref:`/detached rule and need not equal the
prior `HEAD` content). -/
theorem c7_noop_idempotence (args : CheckoutArgs) (w : World) (r oid : String)
    (href : args.ref = some r) (hloc : w.resolve r = some oid)
    (hH : w.resolve "HEAD" = some oid) (hnc : args.noCheckout = false) :
    fastCheckout args w = (.ok, [.headWrite (headContentFor w r oid)]) := by
  have hoid : resolvedOid w args.remote r = some oid := by
    simp [resolvedOid, hloc]
  have hboot : bootstrapEffects w args.remote r = [] := by
    simp [bootstrapEffects, hloc]
  simp [fastCheckout, href, hoid, hH, hnc, hboot]

/-- Witness for the amended C7 at the concrete detached-`HEAD` state. -/
theorem c7_noop_idempotence_witness :
    aPlain.ref = some "master" ∧
    wAtOid.resolve "master" = some "x1" ∧
    wAtOid.resolve "HEAD" = some "x1" ∧
    aPlain.noCheckout = false ∧
    fastCheckout aPlain wAtOid = (.ok, [.headWrite (headContentFor wAtOid "master" "x1")]) :=
  ⟨rfl, rfl, rfl, rfl, c7_noop_idempotence aPlain wAtOid "master" "x1" rfl rfl rfl rfl⟩

/-- Claim C9: in phase 4, every `create`/`update` op writes by its declared
mode — `100644` a plain write, `100755` a write with mode option `0o777`,
`120000` a `writelink`, and any other mode raises the source's
`InternalFail` (caught by the per-op handler, so only the `chmod` removal
persists and no write or insert happens) — and for every op with declared
mode `100755` (including `create-index`) the stat handed to `index.insert`
carries mode `0o755` regardless of what `lstat` reported. -/
theorem c9_phase4_modes (w : World) (total : Nat) (o : Op) (count : Nat)
    (obj : String) (m : Nat) (hro : w.readObject o.oidOf = some obj)
    (hls : w.lstat o.fullpathOf = some m) :
    ((o.method = "create" ∨ o.method = "update") → o.modeOf = "100644" →
      applyCreateOp w total o count =
        ((if o.chmodOf = true then [Effect.rm o.fullpathOf] else []) ++
          [.fileWrite o.fullpathOf obj none,
           .indexInsert o.fullpathOf o.oidOf m,
           .progress "Updating workdir" (count + 1) total], count + 1)) ∧
    ((o.method = "create" ∨ o.method = "update") → o.modeOf = "100755" →
      applyCreateOp w total o count =
        ((if o.chmodOf = true then [Effect.rm o.fullpathOf] else []) ++
          [.fileWrite o.fullpathOf obj (some 0o777),
           .indexInsert o.fullpathOf o.oidOf 0o755,
           .progress "Updating workdir" (count + 1) total], count + 1)) ∧
    ((o.method = "create" ∨ o.method = "update") → o.modeOf = "120000" →
      applyCreateOp w total o count =
        ((if o.chmodOf = true then [Effect.rm o.fullpathOf] else []) ++
          [.writelink o.fullpathOf obj,
           .indexInsert o.fullpathOf o.oidOf m,
           .progress "Updating workdir" (count + 1) total], count + 1)) ∧
    ((o.method = "create" ∨ o.method = "update") →
      o.modeOf ≠ "100644" → o.modeOf ≠ "100755" → o.modeOf ≠ "120000" →
      writeBlobByMode o.fullpathOf o.oidOf o.modeOf obj =
        .error ("Invalid mode \"" ++ o.modeOf ++ "\" detected in blob " ++ o.oidOf) ∧
      applyCreateOp w total o count =
        ((if o.chmodOf = true then [Effect.rm o.fullpathOf] else []), count)) ∧
    (o.method = "create-index" →
      applyCreateOp w total o count =
        ([.indexInsert o.fullpathOf o.oidOf (if o.modeOf = "100755" then 0o755 else m),
          .progress "Updating workdir" (count + 1) total], count + 1)) ∧
    ((o.method = "create" ∨ o.method = "create-index" ∨ o.method = "update") →
      o.modeOf = "100755" →
      Effect.indexInsert o.fullpathOf o.oidOf 0o755 ∈ (applyCreateOp w total o count).1) := by
  have hne : ∀ s : String, o.method = s → s ≠ "create-index" →
      (o.method = "create-index") = False := by
    intro s h hne
    simp [h, hne]
  refine ⟨?_, ?_, ?_, ?_, ?_, ?_⟩
  · rintro (hm | hm) hmode <;>
      simp [applyCreateOp, tryWriteBlob, writeBlobByMode, hro, hls, hm, hmode]
  · rintro (hm | hm) hmode <;>
      simp [applyCreateOp, tryWriteBlob, writeBlobByMode, hro, hls, hm, hmode]
  · rintro (hm | hm) hmode <;>
      simp [applyCreateOp, tryWriteBlob, writeBlobByMode, hro, hls, hm, hmode]
  · rintro (hm | hm) h1 h2 h3 <;>
      refine ⟨by simp [writeBlobByMode, h1, h2, h3], ?_⟩ <;>
      simp [applyCreateOp, tryWriteBlob, writeBlobByMode, hro, hls, hm, h1, h2, h3]
  · intro hm
    simp [applyCreateOp, tryWriteBlob, hls, hm]
  · rintro (hm | hm | hm) hmode <;>
      simp [applyCreateOp, tryWriteBlob, writeBlobByMode, hro, hls, hm, hmode]

/-- Witness for C9: an `update` to an executable blob; `lstat` reports a
non-executable `0o644` but the inserted stat mode is `0o755`. -/
theorem c9_phase4_modes_witness :
    wPhase4.readObject (Op.update ["f"] "oidB" "100755" true).oidOf = some "bytes" ∧
    wPhase4.lstat (Op.update ["f"] "oidB" "100755" true).fullpathOf = some 0o644 ∧
    ((Op.update ["f"] "oidB" "100755" true).method = "create" ∨
     (Op.update ["f"] "oidB" "100755" true).method = "update") ∧
    (Op.update ["f"] "oidB" "100755" true).modeOf = "100755" ∧
    applyCreateOp wPhase4 3 (.update ["f"] "oidB" "100755" true) 0 =
      ([.rm ["f"], .fileWrite ["f"] "bytes" (some 0o777),
        .indexInsert ["f"] "oidB" 0o755, .progress "Updating workdir" 1 3], 1) :=
  ⟨rfl, rfl, Or.inr rfl, rfl, by
    have h := (c9_phase4_modes wPhase4 3 (.update ["f"] "oidB" "100755" true) 0
      "bytes" 0o644 rfl rfl).2.1 (Or.inr rfl) rfl
    simpa using h⟩

/-- Splitting `runPhase` over a concatenation of op lists. -/
theorem runPhase_append (step : Op → Nat → List Effect × Nat) (a b : List Op)
    (count : Nat) :
    runPhase step (a ++ b) count =
      ((runPhase step a count).1 ++ (runPhase step b (runPhase step a count).2).1,
       (runPhase step b (runPhase step a count).2).2) := by
  induction a generalizing count with
  | nil => simp [runPhase]
  | cons o rest ih => simp [runPhase, ih]

/-- A head op on which the step does nothing (no effects, unchanged
counter) drops out of `runPhase`. -/
theorem runPhase_cons_skip (step : Op → Nat → List Effect × Nat) (u : Op)
    (l : List Op) (count : Nat) (hstep : step u count = ([], count)) :
    runPhase step (u :: l) count = runPhase step l count := by
  simp [runPhase, hstep]

/-- Filtering ignores a middle element on which the predicate is false. -/
theorem filter_middle_false (p : Op → Bool) (u : Op) (hp : p u = false)
    (l1 l2 : List Op) : (l1 ++ u :: l2).filter p = (l1 ++ l2).filter p := by
  simp [List.filter_append, List.filter_cons, hp]

/-- Claim C10: an op whose first element is none of the recognized methods
(`mkdir`, `rmdir`, `create`, `create-index`, `update`, `delete`,
`delete-index`, `conflict`, `error`) is invisible to both aggregator scans
and to all four applier phases — removing it changes neither scan result
nor any phase's selection or run — and it contributes only to the progress
total (the plan length). -/
theorem c10_unrecognized_skipped (u : Op) (hu : recognizedMethod u.method = false)
    (l1 l2 : List Op) :
    conflictsOf (l1 ++ u :: l2) = conflictsOf (l1 ++ l2) ∧
    errorsOf (l1 ++ u :: l2) = errorsOf (l1 ++ l2) ∧
    (l1 ++ u :: l2).filter phase1Sel = (l1 ++ l2).filter phase1Sel ∧
    (∀ total count, runPhase (phase2Step total) (l1 ++ u :: l2) count =
      runPhase (phase2Step total) (l1 ++ l2) count) ∧
    (l1 ++ u :: l2).filter phase3Sel = (l1 ++ l2).filter phase3Sel ∧
    (l1 ++ u :: l2).filter phase4Sel = (l1 ++ l2).filter phase4Sel ∧
    (l1 ++ u :: l2).length = (l1 ++ l2).length + 1 := by
  simp only [recognizedMethod, Bool.or_eq_false_iff, decide_eq_false_iff_not] at hu
  obtain ⟨⟨⟨⟨⟨⟨⟨⟨hmk, hrm⟩, hcr⟩, hci⟩, hup⟩, hdl⟩, hdi⟩, hcf⟩, her⟩ := hu
  refine ⟨?_, ?_, ?_, ?_, ?_, ?_, by simp; omega⟩
  · unfold conflictsOf
    rw [filter_middle_false _ u (by simp [hcf])]
  · unfold errorsOf
    rw [filter_middle_false _ u (by simp [her])]
  · exact filter_middle_false _ u (by simp [phase1Sel, hdl, hdi]) l1 l2
  · intro total count
    rw [runPhase_append, runPhase_append,
      runPhase_cons_skip _ u l2 _ (by simp [phase2Step, hrm])]
  · exact filter_middle_false _ u (by simp [phase3Sel, hmk]) l1 l2
  · exact filter_middle_false _ u (by simp [phase4Sel, hcr, hci, hup]) l1 l2

/-- No successful `writeBlobByMode` result contains a `HEAD` write. -/
theorem writeBlobByMode_isHeadWrite_false (p : Path) (oid mode obj : String)
    (effs : List Effect) (h : writeBlobByMode p oid mode obj = .ok effs) :
    ∀ e ∈ effs, e.isHeadWrite = false := by
  unfold writeBlobByMode at h
  split_ifs at h <;>
    injection h with h <;>
    subst h <;>
    intro e he <;>
    simp at he <;>
    subst he <;>
    rfl

/-- The write part of a phase-4 op never writes `HEAD`. -/
theorem tryWriteBlob_isHeadWrite_false (w : World) (o : Op) :
    ∀ e ∈ (tryWriteBlob w o).1, e.isHeadWrite = false := by
  intro e he
  by_cases h1 : o.method = "create-index"
  · simp [tryWriteBlob, h1] at he
  · rcases h2 : w.readObject o.oidOf with _ | obj
    · simp [tryWriteBlob, h1, h2] at he
    · rcases h5 : writeBlobByMode o.fullpathOf o.oidOf o.modeOf obj with m | effs
      · simp [tryWriteBlob, h1, h2, h5] at he
        rcases he with ⟨h3, rfl⟩
        rfl
      · simp [tryWriteBlob, h1, h2, h5] at he
        rcases he with ⟨h3, rfl⟩ | hp
        · rfl
        · exact writeBlobByMode_isHeadWrite_false _ _ _ _ _ h5 e hp

/-- A whole phase-4 op never writes `HEAD`. -/
theorem applyCreateOp_isHeadWrite_false (w : World) (total : Nat) (o : Op)
    (count : Nat) : ∀ e ∈ (applyCreateOp w total o count).1, e.isHeadWrite = false := by
  intro e he
  have htw := tryWriteBlob_isHeadWrite_false w o
  rcases htb : tryWriteBlob w o with ⟨effs, b⟩
  rw [htb] at htw
  unfold applyCreateOp at he
  rw [htb] at he
  cases b
  · exact htw e he
  · rcases hls : w.lstat o.fullpathOf with _ | m
    · rw [hls] at he
      exact htw e he
    · rw [hls] at he
      simp only [List.mem_append] at he
      rcases he with h | h
      · exact htw e h
      · simp at h
        rcases h with rfl | rfl <;> rfl

/-- A phase run never writes `HEAD` if its step never does. -/
theorem runPhase_isHeadWrite_false (step : Op → Nat → List Effect × Nat)
    (hstep : ∀ o c, ∀ e ∈ (step o c).1, e.isHeadWrite = false) :
    ∀ (l : List Op) (count : Nat), ∀ e ∈ (runPhase step l count).1, e.isHeadWrite = false := by
  intro l
  induction l with
  | nil =>
    intro count e he
    simp [runPhase] at he
  | cons o rest ih =>
    intro count e he
    simp only [runPhase] at he
    rcases List.mem_append.mp he with h | h
    · exact hstep o count e h
    · exact ih _ e h

/-- The applier — all four phases — never writes `HEAD`. -/
theorem applyOps_isHeadWrite_false (w : World) (ops : List Op) :
    ∀ e ∈ applyOps w ops, e.isHeadWrite = false := by
  intro e he
  unfold applyOps at he
  simp only [List.mem_append] at he
  rcases he with ((h | h) | h) | h
  · refine runPhase_isHeadWrite_false _ ?_ _ _ e h
    intro o c e' he'
    by_cases hd : o.method = "delete"
    · simp [phase1Step, hd] at he'
      rcases he' with rfl | rfl | rfl <;> rfl
    · simp [phase1Step, hd] at he'
      rcases he' with rfl | rfl <;> rfl
  · refine runPhase_isHeadWrite_false _ ?_ _ _ e h
    intro o c e' he'
    by_cases hr : o.method = "rmdir" <;> simp [phase2Step, hr] at he'
    rcases he' with rfl | rfl <;> rfl
  · refine runPhase_isHeadWrite_false _ ?_ _ _ e h
    intro o c e' he'
    simp [phase3Step] at he'
    rcases he' with rfl | rfl <;> rfl
  · exact runPhase_isHeadWrite_false _ (fun o c => applyCreateOp_isHeadWrite_false w _ o c) _ _ e h

/-- The remote-tracking bootstrap never writes `HEAD`. -/
theorem headWrite_not_mem_bootstrap (w : World) (remote r c : String) :
    Effect.headWrite c ∉ bootstrapEffects w remote r := by
  intro hmem
  have h := bootstrapEffects_mutates_false w remote r _ hmem
  simp [Effect.mutates] at h

/-- Claim C8 counterexample: with `noCheckout = false` and `HEAD` already
resolving to the target oid, no apply runs (the trace holds no applier
effect at all) — yet `HEAD` is still rewritten; the claim's "exactly after
a successful apply, or when `noCheckout = true` and `HEAD` differs"
misses this case. -/
theorem c8_counterexample :
    aPlain.noCheckout = false ∧
    wAtOid.resolve "HEAD" = some "x1" ∧
    resolvedOid wAtOid aPlain.remote "master" = some "x1" ∧
    fastCheckout aPlain wAtOid = (.ok, [.headWrite "ref: refs/heads/master\n"]) :=
  ⟨rfl, rfl, rfl, rfl⟩

/-- Claim C8 (amended): when the ref resolves, `HEAD` is rewritten exactly
when the run completes without rejection and without the dry-run early
return — after a successful apply, or when `noCheckout = true`, or when
`HEAD` already equals the resolved oid; and whenever it is written its
content is `ref: <fullref>\n` if the expanded ref begins with
`refs/heads`, and `<oid>\n` (detached) otherwise — that is,
`headContentFor w r oid`. -/
theorem c8_head_update (args : CheckoutArgs) (w : World) (r oid h : String)
    (href : args.ref = some r) (hoid : resolvedOid w args.remote r = some oid)
    (hH : w.resolve "HEAD" = some h) :
    ((∃ c, Effect.headWrite c ∈ (fastCheckout args w).2) ↔
      (args.noCheckout = true ∨ h = oid ∨
       (conflictsOf w.plan = [] ∧ errorsOf w.plan = [] ∧ args.dryRun = false))) ∧
    (∀ c, Effect.headWrite c ∈ (fastCheckout args w).2 → c = headContentFor w r oid) := by
  have hnob : ∀ c, Effect.headWrite c ∉ bootstrapEffects w args.remote r :=
    fun c => headWrite_not_mem_bootstrap w args.remote r c
  by_cases hcond : args.noCheckout = false ∧ h ≠ oid
  · obtain ⟨hnc, hne⟩ := hcond
    by_cases hconf : conflictsOf w.plan = []
    · by_cases herr : errorsOf w.plan = []
      · by_cases hdry : args.dryRun = true
        · have hsnd : (fastCheckout args w).2 = bootstrapEffects w args.remote r := by
            rw [show fastCheckout args w =
              (.planned w.plan, bootstrapEffects w args.remote r) from by
                simp [fastCheckout, href, hoid, hH, hnc, hne, hconf, herr, hdry]]
          refine ⟨iff_of_false ?_ ?_, ?_⟩
          · rintro ⟨c, hc⟩
            rw [hsnd] at hc
            exact hnob c hc
          · rintro (h1 | h1 | h1)
            · rw [hnc] at h1
              cases h1
            · exact hne h1
            · rw [hdry] at h1
              cases h1.2.2
          · intro c hc
            rw [hsnd] at hc
            exact absurd hc (hnob c)
        · have hdry' : args.dryRun = false := by
            revert hdry
            cases args.dryRun <;> simp
          have hsnd : (fastCheckout args w).2 =
              bootstrapEffects w args.remote r ++ applyOps w w.plan ++
                [.headWrite (headContentFor w r oid)] := by
            rw [show fastCheckout args w =
              (.ok, bootstrapEffects w args.remote r ++ applyOps w w.plan ++
                [.headWrite (headContentFor w r oid)]) from by
                simp [fastCheckout, href, hoid, hH, hnc, hne, hconf, herr, hdry']]
          refine ⟨iff_of_true ?_ ?_, ?_⟩
          · rw [hsnd]
            exact ⟨headContentFor w r oid, by simp⟩
          · exact Or.inr (Or.inr ⟨hconf, herr, hdry'⟩)
          · intro c hc
            rw [hsnd] at hc
            rcases List.mem_append.mp hc with hb | hb
            · rcases List.mem_append.mp hb with hb2 | hb2
              · exact absurd hb2 (hnob c)
              · have := applyOps_isHeadWrite_false w w.plan _ hb2
                simp [Effect.isHeadWrite] at this
            · simp at hb
              exact hb
      · have hsnd : (fastCheckout args w).2 = bootstrapEffects w args.remote r := by
          rw [fastCheckout_error_run args w r oid h href hoid hH hnc hne hconf herr]
        refine ⟨iff_of_false ?_ ?_, ?_⟩
        · rintro ⟨c, hc⟩
          rw [hsnd] at hc
          exact hnob c hc
        · rintro (h1 | h1 | h1)
          · rw [hnc] at h1
            cases h1
          · exact hne h1
          · exact herr h1.2.1
        · intro c hc
          rw [hsnd] at hc
          exact absurd hc (hnob c)
    · have hsnd : (fastCheckout args w).2 = bootstrapEffects w args.remote r := by
        rw [fastCheckout_conflict_run args w r oid h href hoid hH hnc hne hconf]
      refine ⟨iff_of_false ?_ ?_, ?_⟩
      · rintro ⟨c, hc⟩
        rw [hsnd] at hc
        exact hnob c hc
      · rintro (h1 | h1 | h1)
        · rw [hnc] at h1
          cases h1
        · exact hne h1
        · exact hconf h1.1
      · intro c hc
        rw [hsnd] at hc
        exact absurd hc (hnob c)
  · have hsnd : (fastCheckout args w).2 =
        bootstrapEffects w args.remote r ++ [.headWrite (headContentFor w r oid)] := by
      rw [show fastCheckout args w =
        (.ok, bootstrapEffects w args.remote r ++
          [.headWrite (headContentFor w r oid)]) from by
          simp [fastCheckout, href, hoid, hH, hcond]]
    refine ⟨iff_of_true ?_ ?_, ?_⟩
    · rw [hsnd]
      exact ⟨headContentFor w r oid, by simp⟩
    · rcases not_and_or.mp hcond with h1 | h1
      · exact Or.inl (by revert h1; cases args.noCheckout <;> simp)
      · exact Or.inr (Or.inl (not_not.mp h1))
    · intro c hc
      rw [hsnd] at hc
      rcases List.mem_append.mp hc with hb | hb
      · exact absurd hb (hnob c)
      · simp at hb
        exact hb

/-- Witness for the amended C8 on a successful-apply run (clean plan,
`HEAD` away from the target). -/
theorem c8_head_update_witness :
    aPlain.ref = some "master" ∧
    resolvedOid wClean aPlain.remote "master" = some "x2" ∧
    wClean.resolve "HEAD" = some "x1" ∧
    ((∃ c, Effect.headWrite c ∈ (fastCheckout aPlain wClean).2) ↔
      (aPlain.noCheckout = true ∨ ("x1" : String) = "x2" ∨
       (conflictsOf wClean.plan = [] ∧ errorsOf wClean.plan = [] ∧
        aPlain.dryRun = false))) :=
  ⟨rfl, rfl, rfl, (c8_head_update aPlain wClean "master" "x2" "x1" rfl rfl rfl).1⟩

/-- `PathLE` is reflexive. -/
theorem PathLE.refl (p : Path) : PathLE p p := ⟨[], by simp⟩

/-- A path precedes its extensions. -/
theorem PathLE.extend (p q : Path) : PathLE p (p ++ q) := ⟨q, rfl⟩

/-- `PathLE` is transitive. -/
theorem PathLE.trans {a b c : Path} (h1 : PathLE a b) (h2 : PathLE b c) :
    PathLE a c := by
  obtain ⟨r, rfl⟩ := h1
  obtain ⟨s, rfl⟩ := h2
  exact ⟨r ++ s, by simp⟩

/-- Two one-segment extensions of the same path below a common descendant
carry the same segment. -/
theorem PathLE.same_head {ps : Path} {n m : String} {c : Path}
    (h1 : PathLE (ps ++ [n]) c) (h2 : PathLE (ps ++ [m]) c) : n = m := by
  obtain ⟨r, hr⟩ := h1
  obtain ⟨s, hs⟩ := h2
  rw [hr] at hs
  have h3 : ps ++ (n :: r) = ps ++ (m :: s) := by
    simpa [List.append_assoc] using hs
  have h4 : n :: r = m :: s := List.append_cancel_left h3
  injection h4 with h5 h6

/-- Every op the planner emits carries the fullpath of the commit entry or
of the stage entry of the triple it was produced from. -/
theorem planEntry_path (norm : Nat → String) (s : StageEntry) (c : CommitEntry)
    (w : WorkdirEntry) (o : Op) (p : Path) (h : planEntry norm s c w = some o)
    (hp : o.path? = some p) : p = c.fullpath ∨ p = s.fullpath := by
  obtain ⟨se, sp, st, sm, so⟩ := s
  obtain ⟨ce, cp, ct, cm, co⟩ := c
  obtain ⟨we, wp, wt, wm, wo⟩ := w
  cases se <;> cases ce <;> cases we <;> simp only [planEntry] at h
  all_goals try exact Option.noConfusion h
  all_goals try split at h
  all_goals try split_ifs at h
  all_goals try exact Option.noConfusion h
  all_goals injection h with h
  all_goals subst h
  all_goals simp only [Op.path?, Option.some.injEq] at hp
  all_goals try exact Option.noConfusion hp
  all_goals subst hp
  all_goals simp

/-- Every op the map callback emits at a node whose entries share the
fullpath `ps` carries the path `ps`. -/
theorem mapEntry_path (tm : Path → Bool) (norm : Nat → String) (e : EntryTriple)
    (o : Op) (p ps : Path) (hc : e.commit.fullpath = ps)
    (hs : e.stage.fullpath = ps) (h : mapEntry tm norm e = some o)
    (hp : o.path? = some p) : p = ps := by
  unfold mapEntry at h
  split_ifs at h
  rcases planEntry_path norm e.stage e.commit e.workdir o p h hp with h1 | h1
  · rw [h1, hc]
  · rw [h1, hs]

/-- `walkForest` is the elementwise walk of the children. -/
theorem walkForest_eq (mapFn : EntryTriple → Option Op) :
    ∀ ts : List WTree, walkForest mapFn ts = ts.map (walkOps mapFn) := by
  intro ts
  induction ts with
  | nil => simp [walkForest]
  | cons t ts ih => simp [walkForest, ih]

/-- Flattening per-child plans preserves the apply-order property when the
children's plans are ordered, each child's ops stay under its own
one-segment extension of `ps`, and the child names are distinct. -/
theorem joinPlans_ordered (ps : Path) (l : List (String × List Op))
    (hnd : (l.map Prod.fst).Nodup)
    (h : ∀ pr ∈ l, OrderedPlan pr.2 ∧ PathsUnder (ps ++ [pr.1]) pr.2) :
    OrderedPlan ((l.map Prod.snd).flatten) ∧
      PathsUnder ps ((l.map Prod.snd).flatten) := by
  induction l with
  | nil =>
    refine ⟨⟨?_, ?_⟩, ?_⟩
    · intro P Q oid mode hQ ha hb
      simp at ha
    · intro P Q hQ ha hb
      simp at ha
    · intro o ho p hp
      simp at ho
  | cons hd rest ih =>
    obtain ⟨n, ops0⟩ := hd
    have hh := h (n, ops0) (List.mem_cons_self _ _)
    have hrest := ih (List.Nodup.of_cons hnd)
      (fun pr hpr => h pr (List.mem_cons_of_mem _ hpr))
    have hn_not : n ∉ (rest.map Prod.fst) := by
      have := List.nodup_cons.mp hnd
      simpa using this.1
    have hflat : ((((n, ops0) :: rest).map Prod.snd).flatten) =
        ops0 ++ ((rest.map Prod.snd).flatten) := by simp
    -- any op in the rest flatten lies under ps ++ [m] for some name m of rest
    have hrestloc : ∀ o ∈ ((rest.map Prod.snd).flatten), ∀ p, o.path? = some p →
        ∃ m ∈ rest.map Prod.fst, PathLE (ps ++ [m]) p := by
      intro o ho p hp
      rcases List.mem_flatten.mp ho with ⟨lmem, hlm, holm⟩
      rcases List.mem_map.mp hlm with ⟨pr, hpr, rfl⟩
      exact ⟨pr.1, List.mem_map.mpr ⟨pr, hpr, rfl⟩,
        (h pr (List.mem_cons_of_mem _ hpr)).2 o holm p hp⟩
    rw [hflat]
    refine ⟨⟨?_, ?_⟩, ?_⟩
    · intro P Q oid mode hQ ha hb
      rcases List.mem_append.mp ha with ha0 | har <;>
        rcases List.mem_append.mp hb with hb0 | hbr
      · exact ((hh.1.1 P Q oid mode hQ ha0 hb0).trans (List.sublist_append_left _ _))
      · exact List.Sublist.append (List.singleton_sublist.mpr ha0)
          (List.singleton_sublist.mpr hbr)
      · -- the mkdir sits in a later child, the create in this one: impossible
        exfalso
        rcases hrestloc _ har P (by simp [Op.path?]) with ⟨m, hm, hle⟩
        have h1 : PathLE (ps ++ [m]) (P ++ Q) := hle.trans (PathLE.extend P Q)
        have h2 : PathLE (ps ++ [n]) (P ++ Q) := hh.2 _ hb0 _ (by simp [Op.path?])
        exact hn_not (PathLE.same_head h2 h1 ▸ hm)
      · exact ((hrest.1.1 P Q oid mode hQ har hbr).trans (List.sublist_append_right _ _))
    · intro P Q hQ ha hb
      rcases List.mem_append.mp ha with ha0 | har <;>
        rcases List.mem_append.mp hb with hb0 | hbr
      · exact ((hh.1.2 P Q hQ ha0 hb0).trans (List.sublist_append_left _ _))
      · exact List.Sublist.append (List.singleton_sublist.mpr ha0)
          (List.singleton_sublist.mpr hbr)
      · -- the delete sits in a later child, the rmdir in this one: impossible
        exfalso
        rcases hrestloc _ har (P ++ Q) (by simp [Op.path?]) with ⟨m, hm, hle⟩
        have h2 : PathLE (ps ++ [n]) (P ++ Q) :=
          (hh.2 _ hb0 P (by simp [Op.path?])).trans (PathLE.extend P Q)
        exact hn_not (PathLE.same_head h2 hle ▸ hm)
      · exact ((hrest.1.2 P Q hQ har hbr).trans (List.sublist_append_right _ _))
    · intro o ho p hp
      rcases List.mem_append.mp ho with h0 | hr
      · exact (PathLE.extend ps [n]).trans (hh.2 o h0 p hp)
      · exact hrest.2 o hr p hp

/-- The plan any well-formed walk produces satisfies the apply-order
property, and all its path-carrying ops lie under the root path. -/
theorem walk_ordered (tm : Path → Bool) (norm : Nat → String) (ps : Path)
    (t : WTree) (hwf : WF ps t) :
    OrderedPlan (walkOps (mapEntry tm norm) t) ∧
      PathsUnder ps (walkOps (mapEntry tm norm) t) := by
  induction hwf with
  | node ps e ns cs hc hs hw hnd hlen hch ih =>
    have hnsle : ns.length ≤ cs.length := le_of_eq hlen.symm
    have hcsle : cs.length ≤ ns.length := le_of_eq hlen
    -- package the children as (name, child plan) pairs
    set l := (ns.zip cs).map
      (fun pr => (pr.1, walkOps (mapEntry tm norm) pr.2)) with hl
    have hfst : l.map Prod.fst = ns := by
      rw [hl, List.map_map]
      have : (Prod.fst ∘ fun pr : String × WTree =>
          (pr.1, walkOps (mapEntry tm norm) pr.2)) = Prod.fst := by
        funext pr
        rfl
      rw [this, List.map_fst_zip ns cs hnsle]
    have hsnd : (l.map Prod.snd).flatten =
        (walkForest (mapEntry tm norm) cs).flatten := by
      rw [hl, List.map_map, walkForest_eq]
      congr 1
      have : (Prod.snd ∘ fun pr : String × WTree =>
          (pr.1, walkOps (mapEntry tm norm) pr.2)) =
          (walkOps (mapEntry tm norm)) ∘ Prod.snd := by
        funext pr
        rfl
      rw [this, ← List.map_map, List.map_snd_zip ns cs hcsle]
    have hjoin := joinPlans_ordered ps l (by rw [hfst]; exact hnd)
      (by
        intro pr' hpr'
        rcases List.mem_map.mp hpr' with ⟨pr, hpr, rfl⟩
        exact ih pr hpr)
    rw [hsnd] at hjoin
    obtain ⟨hC, hCund⟩ := hjoin
    have hwalk : walkOps (mapEntry tm norm) (.node e cs) =
        reduceOps (mapEntry tm norm e) (walkForest (mapEntry tm norm) cs) := rfl
    set C := (walkForest (mapEntry tm norm) cs).flatten with hCdef
    rcases hme : mapEntry tm norm e with _ | par
    · rw [hwalk]
      simp only [reduceOps, hme]
      exact ⟨hC, hCund⟩
    · have hparpath : ∀ p, par.path? = some p → p = ps :=
        fun p hp => mapEntry_path tm norm e par p ps hc hs hme hp
      by_cases hpm : par.method = "rmdir"
      · -- rmdir parent: appended after the children
        have hred : walkOps (mapEntry tm norm) (.node e cs) = C ++ [par] := by
          rw [hwalk]
          simp only [reduceOps, hme, hpm]
          simp
        rw [hred]
        refine ⟨⟨?_, ?_⟩, ?_⟩
        · intro P Q oid mode hQ ha hb
          rcases List.mem_append.mp ha with ha0 | ha1
          · rcases List.mem_append.mp hb with hb0 | hb1
            · exact (hC.1 P Q oid mode hQ ha0 hb0).trans (List.sublist_append_left _ _)
            · -- par would be a create: its method is not "rmdir"
              exfalso
              have hpar : Op.create (P ++ Q) oid mode = par := by simpa using hb1
              rw [← hpar] at hpm
              exact absurd hpm (by simp [Op.method])
          · -- par would be a mkdir: its method is not "rmdir"
            exfalso
            have hpar : Op.mkdir P = par := by simpa using ha1
            rw [← hpar] at hpm
            exact absurd hpm (by simp [Op.method])
        · intro P Q hQ ha hb
          rcases List.mem_append.mp ha with ha0 | ha1
          · rcases List.mem_append.mp hb with hb0 | hb1
            · exact (hC.2 P Q hQ ha0 hb0).trans (List.sublist_append_left _ _)
            · -- delete in the children, rmdir is the appended parent
              exact List.Sublist.append (List.singleton_sublist.mpr ha0)
                (List.singleton_sublist.mpr hb1)
          · -- par would be a delete: its method is not "rmdir"
            exfalso
            have hpar : Op.delete (P ++ Q) = par := by simpa using ha1
            rw [← hpar] at hpm
            exact absurd hpm (by simp [Op.method])
        · intro o ho p hp
          rcases List.mem_append.mp ho with h0 | h1
          · exact hCund o h0 p hp
          · have : o = par := by simpa using h1
            rw [this] at hp
            exact (hparpath p hp) ▸ PathLE.refl ps
      · -- any other parent: prepended before the children
        have hred : walkOps (mapEntry tm norm) (.node e cs) = par :: C := by
          rw [hwalk]
          simp only [reduceOps, hme, hpm]
          simp [hpm]
        rw [hred]
        refine ⟨⟨?_, ?_⟩, ?_⟩
        · intro P Q oid mode hQ ha hb
          rcases List.mem_cons.mp ha with ha1 | ha0
          · -- the parent is the mkdir: it precedes everything
            rcases List.mem_cons.mp hb with hb1 | hb0
            · exfalso
              rw [← ha1] at hb1
              simp at hb1
            · rw [← ha1]
              exact List.Sublist.cons₂ _ (List.singleton_sublist.mpr hb0)
          · rcases List.mem_cons.mp hb with hb1 | hb0
            · -- the parent would be the deeper create: impossible at its own path
              exfalso
              have hpp : P ++ Q = ps := hparpath (P ++ Q) (by rw [← hb1]; simp [Op.path?])
              obtain ⟨r, hr⟩ := hCund _ ha0 P (by simp [Op.path?])
              have hlen2 : P.length + Q.length = ps.length := by
                have h0 := congrArg List.length hpp
                simpa [List.length_append] using h0
              have hlen3 : P.length = ps.length + r.length := by
                have h0 := congrArg List.length hr
                simpa [List.length_append] using h0
              exact hQ (List.length_eq_zero.mp (by omega))
            · exact (hC.1 P Q oid mode hQ ha0 hb0).cons par
        · intro P Q hQ ha hb
          rcases List.mem_cons.mp hb with hb1 | hb0
          · -- the parent would be the rmdir: excluded in this branch
            exfalso
            rw [← hb1] at hpm
            exact absurd hpm (by simp [Op.method])
          · rcases List.mem_cons.mp ha with ha1 | ha0
            · -- the parent is the delete: it precedes the rmdir below
              rw [← ha1]
              exact List.Sublist.cons₂ _ (List.singleton_sublist.mpr hb0)
            · exact (hC.2 P Q hQ ha0 hb0).cons par
        · intro o ho p hp
          rcases List.mem_cons.mp ho with h1 | h0
          · rw [h1] at hp
            exact (hparpath p hp) ▸ PathLE.refl ps
          · exact hCund o h0 p hp

/-- Claim C4: the reducer appends an `rmdir` parent after its (flattened)
children's ops and prepends every other parent before them; consequently,
for every well-formed walk tree, in the emitted plan every `mkdir P`
precedes every `create` of a path strictly below `P`, and every `delete`
of a path strictly below `P` precedes `rmdir P`. -/
theorem c4_reduce_and_apply_order (tm : Path → Bool) (norm : Nat → String)
    (ps : Path) (t : WTree) (hwf : WF ps t) :
    (∀ (p : Op) (cs : List (List Op)),
      (p.method = "rmdir" → reduceOps (some p) cs = cs.flatten ++ [p]) ∧
      (p.method ≠ "rmdir" → reduceOps (some p) cs = p :: cs.flatten) ∧
      reduceOps none cs = cs.flatten) ∧
    (∀ (P Q : Path) (oid mode : String), Q ≠ [] →
      Op.mkdir P ∈ walkOps (mapEntry tm norm) t →
      Op.create (P ++ Q) oid mode ∈ walkOps (mapEntry tm norm) t →
      List.Sublist [Op.mkdir P, Op.create (P ++ Q) oid mode]
        (walkOps (mapEntry tm norm) t)) ∧
    (∀ P Q : Path, Q ≠ [] →
      Op.delete (P ++ Q) ∈ walkOps (mapEntry tm norm) t →
      Op.rmdir P ∈ walkOps (mapEntry tm norm) t →
      List.Sublist [Op.delete (P ++ Q), Op.rmdir P]
        (walkOps (mapEntry tm norm) t)) := by
  refine ⟨?_, (walk_ordered tm norm ps t hwf).1.1, (walk_ordered tm norm ps t hwf).1.2⟩
  intro p cs
  refine ⟨fun hm => by simp [reduceOps, hm], fun hm => by simp [reduceOps, hm], by
    simp [reduceOps]⟩

/-- The S1 walk tree is well formed at the root. -/
theorem tS1_wf : WF [] tS1 := by
  refine WF.node [] _ ["a", "d"] _ rfl rfl rfl (by decide) rfl ?_
  intro pr hpr
  simp only [List.zip, List.zipWith, List.mem_cons, List.not_mem_nil, or_false] at hpr
  rcases hpr with rfl | rfl
  · exact WF.node ["a"] _ [] [] rfl rfl rfl (by decide) rfl
      (by intro pr h; simp at h)
  · refine WF.node ["d"] _ ["b"] _ rfl rfl rfl (by decide) rfl ?_
    intro pr hpr
    simp only [List.zip, List.zipWith, List.mem_cons, List.not_mem_nil, or_false] at hpr
    rcases hpr with rfl
    exact WF.node ["d", "b"] _ [] [] rfl rfl rfl (by decide) rfl
      (by intro pr h; simp at h)

/-- Witness for C4 on the concrete S1 tree: `mkdir d` precedes
`create d/b`. -/
theorem c4_reduce_and_apply_order_witness :
    WF [] tS1 ∧
    (["b"] : Path) ≠ [] ∧
    Op.mkdir ["d"] ∈ walkOps (mapEntry (fun _ => true) normOctStr) tS1 ∧
    Op.create (["d"] ++ ["b"]) "ob" "100755" ∈
      walkOps (mapEntry (fun _ => true) normOctStr) tS1 ∧
    List.Sublist [Op.mkdir ["d"], Op.create (["d"] ++ ["b"]) "ob" "100755"]
      (walkOps (mapEntry (fun _ => true) normOctStr) tS1) :=
  ⟨tS1_wf, by decide, by decide, by decide,
   (c4_reduce_and_apply_order (fun _ => true) normOctStr [] tS1 tS1_wf).2.1
     ["d"] ["b"] "ob" "100755" (by decide) (by decide) (by decide)⟩

/-- Witness for C10 at the concrete one-element op the planner produces at
key `101` for a staged gitlink. -/
theorem c10_unrecognized_skipped_witness :
    recognizedMethod (Op.unhandled "delete entry Unhandled type commit").method = false ∧
    conflictsOf ([.conflict ["a"]] ++ Op.unhandled "delete entry Unhandled type commit" ::
        [.delete ["b"]]) =
      conflictsOf ([.conflict ["a"]] ++ [.delete ["b"]]) :=
  ⟨by decide,
   (c10_unrecognized_skipped (.unhandled "delete entry Unhandled type commit")
     (by decide) [.conflict ["a"]] [.delete ["b"]]).1⟩

end Checkout
